import Mathlib

/-!
# Verification of the IKMS multi-agent QA server

A shallow embedding, in Lean 4, of the core data model and operations of the
IKMS server (`src/server/src`):

* the Citation Indexer (`core/retrieval/serialization.py`),
* the orchestration nodes (`core/agent/nodes.py`) and the retrieval loop
  wiring (`core/agent/graph.py`),
* the answer formatter (`core/agent/utils.py`),
* the LangGraph → Vercel streaming protocol adapter
  (`utils/langgraph_vercel_adapter.py`).

Python strings are modelled as `List Char` (`Str`); Python `str.strip`,
slicing and `len` are given explicit executable models (`pyStrip`,
`List.take`, `List.length`).  Python `dict`s keyed by strings are modelled
as insertion-ordered association lists with a `dictUpdate` operation that
mirrors `dict.update` (existing keys are overwritten in place, new keys are
appended).  Agent invocations (LLM calls) are modelled as oracle functions
supplied as parameters; the nodes are otherwise translated statement by
statement from the source.
-/

set_option maxRecDepth 40000

namespace IKMS

/-- Python strings, modelled as lists of characters. -/
abbrev Str := List Char

/-- Coercion from Lean string literals to the `Str` model. -/
def str (s : String) : Str := s.data

/-- Model of Python `str.strip()`: drop whitespace from both ends. -/
def pyStrip (s : Str) : Str :=
  ((s.dropWhile Char.isWhitespace).reverse.dropWhile Char.isWhitespace).reverse

/-- Model of Python `"sep".join(parts)`. -/
def joinSep (sep : Str) : List Str → Str
  | [] => []
  | [x] => x
  | x :: y :: rest => x ++ sep ++ joinSep sep (y :: rest)

/-- Big-endian decimal digit rendering, fuel-based so that it is
structurally recursive (the fuel `n` itself always suffices). -/
def natStrAux : Nat → Nat → Str
  | 0, _ => []
  | fuel + 1, n => if n = 0 then [] else natStrAux fuel (n / 10) ++ [Nat.digitChar (n % 10)]

/-- Model of Python `str(n)` for a natural number. -/
def natStr (n : Nat) : Str :=
  if n = 0 then ['0'] else natStrAux n n

/-- Left fold that reads a decimal digit string back into a number;
used only to prove `natStr` injective. -/
def decValAux : Str → Nat → Nat
  | [], acc => acc
  | c :: cs, acc => decValAux cs (acc * 10 + (c.toNat - 48))

def decVal (s : Str) : Nat := decValAux s 0

/-! ## Citation Indexer — `core/retrieval/serialization.py` -/

/-- An evidence chunk as consumed by `serialize_chunks_with_ids`:
`page_content` plus the already-resolved page label
(`metadata.get("page") or metadata.get("page_number", "unknown")`)
and source (`metadata.get("source", "unknown")`). -/
structure Document where
  pageContent : Str
  pageLabel : Str
  source : Str
deriving DecidableEq, Repr, Inhabited

/-- A citation-map entry (`citation_map[chunk_id]` in the source). -/
structure Citation where
  page : Str
  snippet : Str
  source : Str
  fullContent : Str
deriving DecidableEq, Repr, Inhabited

/-- `chunk_id = f"C{idx}"`. -/
def chunkId (idx : Nat) : Str := str "C" ++ natStr idx

/-- The citation-map entry built for one document
(`serialize_chunks_with_ids`, loop body). -/
def citationFor (doc : Document) : Citation :=
  let chunkContent := pyStrip doc.pageContent
  { page := doc.pageLabel
    snippet :=
      if 150 < chunkContent.length then chunkContent.take 150 ++ str "..."
      else chunkContent
    source := doc.source
    fullContent := chunkContent }

/-- One formatted context block:
`f"{chunk_header}\n{chunk_content}"` with header
`f"[{chunk_id}] Chunk from page {page_num}:"`. -/
def contextPartFor (idx : Nat) (doc : Document) : Str :=
  str "[" ++ chunkId idx ++ str "] Chunk from page " ++ doc.pageLabel ++ str ":\n"
    ++ pyStrip doc.pageContent

/-- The list of context blocks, ids assigned from `idx` upwards. -/
def contextParts (idx : Nat) : List Document → List Str
  | [] => []
  | d :: ds => contextPartFor idx d :: contextParts (idx + 1) ds

/-- The citation-map entries, ids assigned from `idx` upwards. -/
def citationEntries (idx : Nat) : List Document → List (Str × Citation)
  | [] => []
  | d :: ds => (chunkId idx, citationFor d) :: citationEntries (idx + 1) ds

/-- `serialize_chunks_with_ids(docs)`: the serialized context string and the
citation map (as an insertion-ordered association list; its keys `C1..Cn`
are pairwise distinct, so the Python dict has exactly these entries). -/
def serialize_chunks_with_ids (docs : List Document) : Str × List (Str × Citation) :=
  (joinSep (str "\n\n") (contextParts 1 docs), citationEntries 1 docs)

/-! ## Python dict model (insertion-ordered association list) -/

/-- `d[k] = v` on a Python dict: overwrite in place if the key exists,
append otherwise. -/
def dictInsert (d : List (Str × Citation)) (k : Str) (v : Citation) :
    List (Str × Citation) :=
  if d.any (fun p => p.1 = k) then d.map (fun p => if p.1 = k then (k, v) else p)
  else d ++ [(k, v)]

/-- `d.update(new)` on Python dicts. -/
def dictUpdate (d new : List (Str × Citation)) : List (Str × Citation) :=
  new.foldl (fun acc p => dictInsert acc p.1 p.2) d

/-! ## Query plan and retrieval — `core/agent/nodes.py` -/

/-- The planner's structured output (`response_modal.QueryPlan`, after
`model_dump()`); both fields are `Optional` in the pydantic model. -/
structure QueryPlanR where
  plan : Option Str
  subQuestions : Option (List Str)
deriving DecidableEq, Repr

/-- `query_plan_node`: invoke the planner with the question; store the
structured response if present, else store `None`.  The planner itself is
an oracle parameter. -/
def query_plan_node (planner : Str → Option QueryPlanR) (question : Str) :
    Option QueryPlanR :=
  planner question

/-- `retrieval_node`'s query selection:
`query_plan["sub_questions"]` must be truthy (present and non-empty),
otherwise fall back to `[question]`. -/
def queriesFor (question : Str) (queryPlan : Option QueryPlanR) : List Str :=
  match queryPlan with
  | some p =>
    match p.subQuestions with
    | some l => if l ≠ [] then l else [question]
    | none => [question]
  | none => [question]

/-- The last `ToolMessage` of one retrieval-agent invocation: its string
content and the citation fragment extracted from its artifact by
`_extract_citations_from_tool_message`. -/
structure ToolMsg where
  content : Str
  citations : List (Str × Citation)
deriving DecidableEq, Repr

/-- The retrieval tool (`core/agent/tools.py`, `retrieval_tool`): retrieve
documents for the query and serialize them with `serialize_chunks_with_ids`;
the content is the serialized context, the artifact carries the citation
map.  The vector-store lookup is an oracle parameter. -/
def retrievalTool (docsFor : Str → List Document) (query : Str) : ToolMsg :=
  { content := (serialize_chunks_with_ids (docsFor query)).1
    citations := (serialize_chunks_with_ids (docsFor query)).2 }

/-- `_build_structured_context(call_number, query, context_content)`. -/
def buildStructuredContext (callNumber : Nat) (query content : Str) : Str :=
  str "=== RETRIEVAL CALL " ++ natStr callNumber ++ str " (query: \"" ++ query
    ++ str "\") ===\n\n" ++ content

/-- Accumulators of the `for call_number, query in enumerate(queries, 1)`
loop in `retrieval_node`.  `callLog` records the queries actually sent to
the retrieval agent, one entry per `retrieval_agent.invoke` call. -/
structure RetrievalAcc where
  callLog : List Str
  toolMessages : List ToolMsg
  blocks : List Str
  citations : List (Str × Citation)
deriving Repr

/-- The outer retrieval loop of `retrieval_node`, translated exactly: each
iteration appends this call's last `ToolMessage` and then — as in the
source — iterates over *all* accumulated `tool_messages`, merging each
one's citations into the dict and appending one structured block per
accumulated message, labelled with the *current* call number and query. -/
def retrievalLoop (agent : Str → ToolMsg) : Nat → List Str → RetrievalAcc → RetrievalAcc
  | _, [], acc => acc
  | n, q :: rest, acc =>
    let tms := acc.toolMessages ++ [agent q]
    retrievalLoop agent (n + 1) rest
      { callLog := acc.callLog ++ [q]
        toolMessages := tms
        blocks := acc.blocks ++ tms.map (fun tm => buildStructuredContext n q tm.content)
        citations := tms.foldl (fun c tm => dictUpdate c tm.citations) acc.citations }

/-- The state fragment returned by `retrieval_node`. -/
structure RetrievalResult where
  callLog : List Str
  toolMessages : List ToolMsg
  blocks : List Str
  citations : List (Str × Citation)
  context : Str
  retrievalCount : Nat
deriving Repr

/-- `retrieval_node`: pick the queries, run the loop, join the structured
blocks into the merged context, and set `retrieval_count = len(queries)`.
The retrieval agent (one invocation per query, yielding that invocation's
last `ToolMessage`) is an oracle parameter. -/
def retrieval_node (agent : Str → ToolMsg) (question : Str)
    (queryPlan : Option QueryPlanR) : RetrievalResult :=
  let queries := queriesFor question queryPlan
  let acc := retrievalLoop agent 1 queries ⟨[], [], [], []⟩
  { callLog := acc.callLog
    toolMessages := acc.toolMessages
    blocks := acc.blocks
    citations := acc.citations
    context := if acc.blocks ≠ [] then joinSep (str "\n\n") acc.blocks else []
    retrievalCount := queries.length }

/-! ## The tool-pair extraction loop — `extract_tool_inputs_node`,
`extract_tool_outputs_node`, `should_stop_retrieval` and the conditional
edge of `create_qa_graph`. -/

/-- The slice of `QAState` the extraction loop reads and writes. -/
structure LoopState where
  toolInputs : List Str
  toolOutputs : List Str
  retrievalCount : Nat
  messages : List Str
deriving Repr

/-- `extract_tool_inputs_node`: append
`list(reversed(tool_inputs))[retrieval_count - 1]` to the messages;
the counter is untouched. -/
def extract_tool_inputs_node (s : LoopState) : LoopState :=
  { s with messages := s.messages ++ [s.toolInputs.reverse.getD (s.retrievalCount - 1) []] }

/-- `extract_tool_outputs_node`: append
`list(reversed(tool_outputs))[retrieval_count - 1]` to the messages and
decrement the counter by one. -/
def extract_tool_outputs_node (s : LoopState) : LoopState :=
  { s with
    messages := s.messages ++ [s.toolOutputs.reverse.getD (s.retrievalCount - 1) []]
    retrievalCount := s.retrievalCount - 1 }

/-- `should_stop_retrieval`: `state.get("retrieval_count") == 0`. -/
def should_stop_retrieval (s : LoopState) : Bool :=
  s.retrievalCount == 0

/-- One pass around the `extract_tool_inputs → extract_tool_outputs` edge
of `create_qa_graph`. -/
def loopIter (s : LoopState) : LoopState :=
  extract_tool_outputs_node (extract_tool_inputs_node s)

/-- The conditional loop of `create_qa_graph`, run with explicit fuel:
after each iteration, route to the context critic iff
`should_stop_retrieval`; `none` means the fuel ran out before the critic
was reached.  Returns the final state and the number of iterations. -/
def graphLoop : Nat → LoopState → Option (LoopState × Nat)
  | 0, _ => none
  | fuel + 1, s =>
    let s' := loopIter s
    if should_stop_retrieval s' then some (s', 1)
    else (graphLoop fuel s').map (fun p => (p.1, p.2 + 1))

/-! ## Context critic — `context_critic_node` -/

/-- The critic's structured output (`response_modal.ContextCritic`). -/
structure ContextCritic where
  filteredContext : Str
  contextRationale : List Str
deriving DecidableEq, Repr

/-- The state fragment returned by `context_critic_node`, plus a flag
recording whether the critic agent was invoked at all. -/
structure CriticResult where
  context : Str
  contextRationale : List Str
  invoked : Bool
deriving DecidableEq, Repr

/-- The prompt `context_critic_node` builds for the critic agent. -/
def criticUserContent (question rawContext : Str) : Str :=
  str "Question: " ++ question ++ str "\n\nRetrieved Context:\n" ++ rawContext
    ++ str "\n\nPlease analyze each chunk's relevance to the question, filter out irrelevant content, \nand provide the filtered context with your rationales."

/-- `context_critic_node`: skip the critic on empty/whitespace context;
otherwise invoke it (oracle) and fall back to the original context when no
structured response comes back. -/
def context_critic_node (critic : Str → Option ContextCritic)
    (question rawContext : Str) : CriticResult :=
  if rawContext = [] ∨ pyStrip rawContext = [] then
    { context := []
      contextRationale := [str "No context available for analysis"]
      invoked := false }
  else
    match critic (criticUserContent question rawContext) with
    | some r =>
      { context := r.filteredContext
        contextRationale := r.contextRationale
        invoked := true }
    | none =>
      { context := rawContext
        contextRationale := [str "Context critic analysis unavailable - using original context"]
        invoked := true }

/-! ## Verification — `verification_node` and
`format_final_answer_with_citations` (`core/agent/utils.py`) -/

/-- The lines appended for one citation entry in the references section. -/
def citationLines (p : Str × Citation) : List Str :=
  [str "**[" ++ p.1 ++ str "]** - " ++ p.2.source ++ str ", Page " ++ p.2.page]
    ++ (if p.2.snippet ≠ [] then
          [str "> " ++ (if 150 < p.2.snippet.length
                        then p.2.snippet.take 150 ++ str "..."
                        else p.2.snippet)]
        else [])
    ++ [[]]

/-- Insert an entry after all entries whose key is not greater; the core
of a stable ascending insertion sort. -/
def insertByKey (x : Str × Citation) : List (Str × Citation) → List (Str × Citation)
  | [] => [x]
  | y :: rest => if y.1 ≤ x.1 then y :: insertByKey x rest else x :: y :: rest

/-- Model of `sorted(citations.items(), key=lambda x: x[0])`: a stable
sort ascending by key (insertion sort, which is stable and structurally
recursive). -/
def sortCitations (citations : List (Str × Citation)) : List (Str × Citation) :=
  citations.foldl (fun acc p => insertByKey p acc) []

/-- The `sections` list built by `format_final_answer_with_citations`
before joining. -/
def finalSections (answer : Str) (citations : List (Str × Citation)) : List Str :=
  [str "## 💡 Answer", [], answer, [], str "\n---"]
    ++ (if citations ≠ [] then
          [str "\n## 📚 References", []] ++ (sortCitations citations).flatMap citationLines
        else [])

/-- `format_final_answer_with_citations(answer, citations)`:
`"\n".join(sections).strip()`. -/
def format_final_answer_with_citations (answer : Str)
    (citations : List (Str × Citation)) : Str :=
  pyStrip (joinSep (str "\n") (finalSections answer citations))

/-- The state fragment returned by `verification_node`. -/
structure VerificationResult where
  answer : Str
  message : Str
deriving DecidableEq, Repr

/-- `verification_node`: the verifier agent (oracle, given question,
context and draft answer) produces the final answer; the node stores it
verbatim and formats the streamed markdown message with
`format_final_answer_with_citations`. -/
def verification_node (verifier : Str → Str → Str → Str)
    (question context draftAnswer : Str)
    (citations : List (Str × Citation)) : VerificationResult :=
  let answer := verifier question context draftAnswer
  { answer := answer
    message := format_final_answer_with_citations answer citations }

/-! ## Streaming protocol adapter — `utils/langgraph_vercel_adapter.py`

Wire events are modelled as a discriminated union mirroring the JSON
objects the adapter emits; the `[DONE]` sentinel is the distinguished
`done` constructor.  Message/reasoning ids (`_create_message_id`, random
uuids in the source) are supplied as parameters.  `sourceId` values (also
random) are abstracted away.  The JSON re-parse of tool outputs only
changes the payload's representation, so outputs are carried as their raw
string content. -/

inductive WireEvent
  | startStep
  | finishStep
  | start (messageId : Str)
  | textStart (id : Str)
  | textDelta (id : Str) (delta : Str)
  | textEnd (id : Str)
  | reasoningStart (id : Str)
  | reasoningDelta (id : Str) (delta : Str)
  | reasoningEnd (id : Str)
  | toolInputAvailable (toolCallId toolName : Str)
  | toolOutputAvailable (toolCallId : Str) (output : Str)
  | file (url mediaType : Str)
  | sourceUrl (url : Str)
  | sourceDocument (title mediaType : Str)
  | finish (finishReason : Option Str)
  | error (errorText : Str)
  | done
deriving DecidableEq, Repr

/-- Adapter configuration (`__init__`): `chunk_size` defaults to 50,
`include_reasoning` to `False`; the QA service passes
`custom_data_fields=[]`, so no custom data events arise. -/
structure AdapterCfg where
  chunkSize : Nat := 50
  includeReasoning : Bool := false
deriving Repr

/-- Fuel-based core of `chunkList`; the fuel is always instantiated with
the length of the list, which suffices because every step consumes at
least one character. -/
def chunkListAux (size : Nat) : Nat → Str → List Str
  | _, [] => []
  | 0, _ :: _ => []
  | fuel + 1, c :: rest => (c :: rest).take size :: chunkListAux size fuel (rest.drop (size - 1))

/-- `range(0, len(content), chunk_size)` slicing of `_stream_text_chunked`
(and `_stream_reasoning_chunked`): the successive slices
`content[i : i + chunk_size]`.  Faithful to the Python loop for
`chunk_size ≥ 1` (the source's default is 50; `chunk_size = 0` would raise
in Python's `range`). -/
def chunkList (size : Nat) (l : Str) : List Str :=
  chunkListAux size l.length l

/-- The `text-delta` events of `_stream_text_chunked`. -/
def textDeltas (size : Nat) (id content : Str) : List WireEvent :=
  (chunkList size content).map (fun c => WireEvent.textDelta id c)

/-- The text block of `_handle_node_update`: emitted only when
`content and content.strip()` is truthy. -/
def textEvents (size : Nat) (id content : Str) : List WireEvent :=
  if pyStrip content ≠ [] then
    [WireEvent.textStart id] ++ textDeltas size id content ++ [WireEvent.textEnd id]
  else []

/-- The reasoning block: emitted only when `include_reasoning` is set and
the extracted reasoning is present and non-whitespace. -/
def reasoningEvents (cfg : AdapterCfg) (rid : Str) (reasoning : Option Str) :
    List WireEvent :=
  match reasoning with
  | some r =>
    if cfg.includeReasoning ∧ pyStrip r ≠ [] then
      [WireEvent.reasoningStart rid]
        ++ (chunkList cfg.chunkSize r).map (fun c => WireEvent.reasoningDelta rid c)
        ++ [WireEvent.reasoningEnd rid]
    else []
  | none => []

/-- One tool call carried by an `AIMessage` (`{id, name, args}`). -/
structure ToolCall where
  id : Str
  name : Str
deriving DecidableEq, Repr

/-- `_stream_tool_calls`: one `tool-input-available` per tool call whose
id and name are truthy. -/
def toolCallEvents (tcs : List ToolCall) : List WireEvent :=
  tcs.filterMap (fun tc =>
    if tc.id ≠ [] ∧ tc.name ≠ [] then
      some (WireEvent.toolInputAvailable tc.id tc.name)
    else none)

/-- A file reference already extracted from message metadata
(`_stream_files` emits one `file` event per reference). -/
structure FileRef where
  url : Str
  mediaType : Str
deriving DecidableEq, Repr

def fileEvents (files : List FileRef) : List WireEvent :=
  files.map (fun f => WireEvent.file f.url f.mediaType)

/-- A source reference already extracted from message metadata
(`_stream_sources`). -/
inductive SourceRef
  | url (u : Str)
  | document (title mediaType : Str)
deriving DecidableEq, Repr

def sourceEvents (sources : List SourceRef) : List WireEvent :=
  sources.map (fun s =>
    match s with
    | .url u => WireEvent.sourceUrl u
    | .document t m => WireEvent.sourceDocument t m)

/-- The most recent transcript entry of a snapshot (`messages[-1]`). -/
inductive LastMsg
  | human
  | ai (content : Str) (toolCalls : List ToolCall) (reasoning : Option Str)
      (files : List FileRef) (sources : List SourceRef)
  | tool (toolCallId : Option Str) (content : Str)
      (files : List FileRef) (sources : List SourceRef)
deriving Repr

/-- One state snapshot as seen by `_handle_node_update`
(`astream(..., stream_mode="values")` chunks): either an `__interrupt__`
marker (carrying the list of `Interrupt` values), or a `messages` list
summarised by its last entry, or a snapshot with no/empty messages. -/
inductive Snapshot
  | interrupt (values : List Str)
  | noMessages
  | messages (last : LastMsg)
deriving Repr

/-- `_handle_interrupt`: stream the first interrupt value (if any, and if
non-empty) as chunked text under a fresh message id, then emit
`finish` with `finishReason: "interrupt"`. -/
def handleInterrupt (cfg : AdapterCfg) (iid : Str) (values : List Str) :
    List WireEvent :=
  let m := values.headD []
  (if m ≠ [] then
    [WireEvent.start iid, WireEvent.textStart iid]
      ++ textDeltas cfg.chunkSize iid m ++ [WireEvent.textEnd iid]
   else [])
    ++ [WireEvent.finish (some (str "interrupt"))]

/-- `_handle_node_update`: the events emitted for one snapshot.
`mid` is the run-wide message id created once in `stream`; `iid` and `rid`
stand for the fresh ids `_handle_interrupt` and the reasoning block create. -/
def handleNodeUpdate (cfg : AdapterCfg) (mid iid rid : Str) :
    Snapshot → List WireEvent
  | .interrupt values => handleInterrupt cfg iid values
  | .noMessages => []
  | .messages .human => [WireEvent.startStep]
  | .messages (.tool toolCallId content files sources) =>
    match toolCallId with
    | some tid =>
      if tid ≠ [] then
        [WireEvent.startStep, WireEvent.toolOutputAvailable tid content,
         WireEvent.finishStep]
      else
        [WireEvent.startStep, WireEvent.start mid] ++ fileEvents files
          ++ sourceEvents sources ++ textEvents cfg.chunkSize mid content
          ++ [WireEvent.finishStep]
    | none =>
      [WireEvent.startStep, WireEvent.start mid] ++ fileEvents files
        ++ sourceEvents sources ++ textEvents cfg.chunkSize mid content
        ++ [WireEvent.finishStep]
  | .messages (.ai content toolCalls reasoning files sources) =>
    [WireEvent.startStep, WireEvent.start mid]
      ++ reasoningEvents cfg rid reasoning
      ++ toolCallEvents toolCalls
      ++ fileEvents files
      ++ sourceEvents sources
      ++ textEvents cfg.chunkSize mid content
      ++ [WireEvent.finishStep]

/-- `stream`: process every snapshot the graph yields; on normal
completion append one plain `finish` event and the `[DONE]` sentinel; when
the underlying run raises (after yielding the given snapshots), append a
single `error` event and stop — no `finish`, no sentinel. -/
def stream (cfg : AdapterCfg) (mid iid rid : Str) (snaps : List Snapshot)
    (err : Option Str) : List WireEvent :=
  (snaps.flatMap (handleNodeUpdate cfg mid iid rid))
    ++ match err with
       | some e => [WireEvent.error e]
       | none => [WireEvent.finish none, WireEvent.done]

/-- Terminal wire events in the sense of the protocol: `finish` or
`error` (the `[DONE]` sentinel is framing, not an event). -/
def isTerminal : WireEvent → Bool
  | .finish _ => true
  | .error _ => true
  | _ => false

/-- Number of terminal events in a stream. -/
def terminalCount (evs : List WireEvent) : Nat :=
  (evs.filter isTerminal).length

/-- Whether a snapshot is an interrupt marker. -/
def Snapshot.isInterrupt : Snapshot → Bool
  | .interrupt _ => true
  | _ => false

/-! ## Concrete fixtures used by witnesses and counterexamples -/

/-- A one-chunk document whose trimmed content is 151 characters long. -/
def longDoc : Document :=
  { pageContent := List.replicate 151 'a', pageLabel := str "3", source := str "doc.pdf" }

/-- A short document. -/
def shortDoc : Document :=
  { pageContent := str "hi", pageLabel := str "1", source := str "doc.pdf" }

def docA : Document := { pageContent := str "alpha", pageLabel := str "1", source := str "s1" }

def docB : Document := { pageContent := str "beta", pageLabel := str "2", source := str "s2" }

/-- A vector store returning one distinct document per sub-query. -/
def twoQueryDocs : Str → List Document :=
  fun q => if q = str "q1" then [docA] else [docB]

/-- A query plan with two sub-queries. -/
def twoQueryPlan : Option QueryPlanR :=
  some { plan := none, subQuestions := some [str "q1", str "q2"] }

/-- The retrieval stage run on the two-sub-query plan against the
two-document store. -/
def twoCallRun : RetrievalResult :=
  retrieval_node (retrievalTool twoQueryDocs) (str "question") twoQueryPlan

/-- A one-entry citation map. -/
def advCitations : List (Str × Citation) := [(str "C1", citationFor docA)]

/-- The verification stage run with a verifier that returns an answer
citing an id absent from the citation map. -/
def advVerification : VerificationResult :=
  verification_node (fun _ _ _ => str "See [C99].") (str "q") (str "ctx")
    (str "draft") advCitations

/-! ## Helper lemmas: chunked text slicing -/

theorem chunkListAux_nil (size fuel : Nat) : chunkListAux size fuel [] = [] := by
  cases fuel <;> rfl

theorem chunkListAux_fuel (size : Nat) : ∀ (f1 f2 : Nat) (l : Str),
    l.length ≤ f1 → l.length ≤ f2 → chunkListAux size f1 l = chunkListAux size f2 l := by
  intro f1
  induction f1 with
  | zero =>
    intro f2 l h1 _
    have hl : l = [] := List.length_eq_zero.mp (Nat.le_zero.mp h1)
    subst hl
    rw [chunkListAux_nil, chunkListAux_nil]
  | succ f1 ih =>
    intro f2 l h1 h2
    cases l with
    | nil => rw [chunkListAux_nil, chunkListAux_nil]
    | cons c rest =>
      cases f2 with
      | zero => simp at h2
      | succ f2 =>
        simp only [chunkListAux]
        refine congrArg₂ _ rfl (ih f2 (rest.drop (size - 1)) ?_ ?_) <;>
          · simp only [List.length_drop]
            simp only [List.length_cons] at h1 h2
            omega

theorem chunkList_cons (size : Nat) (c : Char) (rest : Str) :
    chunkList size (c :: rest)
      = (c :: rest).take size :: chunkList size (rest.drop (size - 1)) := by
  unfold chunkList
  simp only [List.length_cons, chunkListAux]
  refine congrArg₂ _ rfl (chunkListAux_fuel size _ _ _ ?_ ?_) <;>
    · simp only [List.length_drop]
      omega

theorem chunkList_flatten (size : Nat) (hs : 0 < size) (l : Str) :
    (chunkList size l).flatten = l := by
  have H : ∀ (n : Nat) (l : Str), l.length = n → (chunkList size l).flatten = l := by
    intro n
    induction n using Nat.strong_induction_on with
    | _ n ih =>
      intro l hl
      cases l with
      | nil => rfl
      | cons c rest =>
        rw [chunkList_cons, List.flatten_cons,
          ih (rest.drop (size - 1)).length ?_ (rest.drop (size - 1)) rfl]
        · obtain ⟨m, rfl⟩ : ∃ m, size = m + 1 := ⟨size - 1, by omega⟩
          simp only [Nat.add_sub_cancel, List.take_succ_cons]
          rw [List.cons_append]
          exact congrArg (c :: ·) (List.take_append_drop m rest)
        · simp only [List.length_drop]
          simp only [← hl, List.length_cons]
          omega
  exact H l.length l rfl

theorem chunkList_mem_length_le (size : Nat) (l : Str) :
    ∀ ch ∈ chunkList size l, ch.length ≤ size := by
  have H : ∀ (n : Nat) (l : Str), l.length = n →
      ∀ ch ∈ chunkList size l, ch.length ≤ size := by
    intro n
    induction n using Nat.strong_induction_on with
    | _ n ih =>
      intro l hl ch hch
      cases l with
      | nil => simp [chunkList, chunkListAux_nil] at hch
      | cons c rest =>
        rw [chunkList_cons] at hch
        rcases List.mem_cons.mp hch with rfl | hmem
        · exact List.length_take_le size (c :: rest)
        · refine ih (rest.drop (size - 1)).length ?_ (rest.drop (size - 1)) rfl ch hmem
          simp only [List.length_drop]
          simp only [← hl, List.length_cons]
          omega
  exact H l.length l rfl

/-! ## Helper lemmas: decimal rendering is injective -/

theorem decValAux_append (l : Str) (c : Char) : ∀ acc : Nat,
    decValAux (l ++ [c]) acc = decValAux l acc * 10 + (c.toNat - 48) := by
  induction l with
  | nil => intro acc; rfl
  | cons a l ih => intro acc; simp only [List.cons_append, decValAux, List.append_eq, ih]

theorem digitChar_toNat (d : Nat) (h : d < 10) : (Nat.digitChar d).toNat - 48 = d := by
  interval_cases d <;> rfl

theorem decValAux_natStrAux : ∀ (fuel n acc : Nat), n ≤ fuel →
    decValAux (natStrAux fuel n) acc = acc * 10 ^ (natStrAux fuel n).length + n := by
  intro fuel
  induction fuel with
  | zero =>
    intro n acc h
    interval_cases n
    simp [natStrAux, decValAux]
  | succ fuel ih =>
    intro n acc h
    by_cases h0 : n = 0
    · subst h0; simp [natStrAux, decValAux]
    · rw [natStrAux, if_neg h0, decValAux_append,
        ih (n / 10) acc (by omega), digitChar_toNat (n % 10) (Nat.mod_lt _ (by omega))]
      rw [List.length_append, List.length_singleton, pow_succ]
      set L := (natStrAux fuel (n / 10)).length with hL
      set A := acc * 10 ^ L with hA
      have : A * 10 = acc * (10 ^ L * 10) := by rw [hA]; ring
      omega

theorem decVal_natStr (n : Nat) : decVal (natStr n) = n := by
  unfold natStr decVal
  by_cases h0 : n = 0
  · subst h0; rfl
  · rw [if_neg h0]
    have h := decValAux_natStrAux n n 0 (le_refl n)
    simpa using h

theorem natStr_injective : Function.Injective natStr := by
  intro a b h
  have ha := decVal_natStr a
  rw [h, decVal_natStr] at ha
  omega

theorem chunkId_injective : Function.Injective chunkId := by
  intro a b h
  have h' : str "C" ++ natStr a = str "C" ++ natStr b := h
  exact natStr_injective (List.append_cancel_left h')

/-! ## Helper lemmas: citation entries (Citation Indexer) -/

theorem citationEntries_length (docs : List Document) : ∀ idx,
    (citationEntries idx docs).length = docs.length := by
  induction docs with
  | nil => intro _; rfl
  | cons d ds ih => intro idx; simp [citationEntries, ih]

theorem citationEntries_keys (docs : List Document) : ∀ idx,
    (citationEntries idx docs).map Prod.fst
      = (List.range docs.length).map (fun i => chunkId (idx + i)) := by
  induction docs with
  | nil => intro _; rfl
  | cons d ds ih =>
    intro idx
    simp only [citationEntries, List.map_cons, List.length_cons,
      List.range_succ_eq_map, List.map_map, ih (idx + 1)]
    refine congrArg₂ _ (by rw [Nat.add_zero]) ?_
    apply List.map_congr_left
    intro i _
    simp only [Function.comp_apply]
    exact congrArg chunkId (by omega)

theorem citationEntries_keys_nodup (docs : List Document) (idx : Nat) :
    ((citationEntries idx docs).map Prod.fst).Nodup := by
  rw [citationEntries_keys]
  refine List.Nodup.map ?_ (List.nodup_range _)
  intro a b hab
  have := chunkId_injective hab
  omega

theorem citationEntries_getD (docs : List Document) : ∀ (idx i : Nat), i < docs.length →
    (citationEntries idx docs).getD i default
      = (chunkId (idx + i), citationFor (docs.getD i default)) := by
  induction docs with
  | nil => intro idx i h; simp at h
  | cons d ds ih =>
    intro idx i h
    cases i with
    | zero => simp [citationEntries]
    | succ i =>
      simp only [citationEntries, List.getD_cons_succ]
      rw [ih (idx + 1) i (by simpa using h)]
      exact congrArg₂ _ (congrArg chunkId (by omega)) rfl

/-! ## Helper lemmas: `joinSep` and `pyStrip` -/

theorem infix_joinSep_of_mem (sep : Str) : ∀ (parts : List Str) (x : Str),
    x ∈ parts → x <:+: joinSep sep parts := by
  intro parts
  induction parts with
  | nil => intro x hx; simp at hx
  | cons a rest ih =>
    intro x hx
    cases rest with
    | nil =>
      rw [List.mem_singleton] at hx
      subst hx
      exact List.infix_refl x
    | cons b rest' =>
      rcases List.mem_cons.mp hx with rfl | hx'
      · rw [joinSep, List.append_assoc]
        exact (List.prefix_append x _).isInfix
      · refine (ih x hx').trans ?_
        rw [joinSep]
        exact (List.suffix_append _ (joinSep sep (b :: rest'))).isInfix

theorem mem_joinSep_head (sep : Str) (x : Str) (rest : List Str) (c : Char)
    (hc : c ∈ x) : c ∈ joinSep sep (x :: rest) := by
  cases rest with
  | nil => exact hc
  | cons y rest' =>
    rw [joinSep]
    exact List.mem_append_left _ (List.mem_append_left _ hc)

theorem dropWhile_append_of_exists {p : Char → Bool} : ∀ (l t : Str),
    (∃ c ∈ l, p c = false) → (l ++ t).dropWhile p = l.dropWhile p ++ t := by
  intro l t h
  induction l with
  | nil => simp at h
  | cons a l ih =>
    by_cases hp : p a
    · have h' : ∃ c ∈ l, p c = false := by
        rcases h with ⟨c, hc, hpc⟩
        rcases List.mem_cons.mp hc with rfl | h2
        · rw [hp] at hpc; cases hpc
        · exact ⟨c, h2, hpc⟩
      simp only [List.cons_append, List.dropWhile_cons, hp, if_true, ih h']
    · simp only [List.cons_append, List.dropWhile_cons, hp]
      simp

/-- If some part before `m` and some part after `m` each contain a
non-whitespace character, then `m` survives Python's `strip` of the
concatenation intact. -/
theorem infix_pyStrip (P m Q : Str)
    (hP : ∃ c ∈ P, c.isWhitespace = false)
    (hQ : ∃ c ∈ Q, c.isWhitespace = false) :
    m <:+: pyStrip (P ++ m ++ Q) := by
  unfold pyStrip
  rw [List.append_assoc, dropWhile_append_of_exists _ _ hP]
  rw [List.reverse_append, List.reverse_append]
  have hQ' : ∃ c ∈ Q.reverse, c.isWhitespace = false := by
    rcases hQ with ⟨c, hc, hw⟩
    exact ⟨c, List.mem_reverse.mpr hc, hw⟩
  rw [List.append_assoc, dropWhile_append_of_exists _ _ hQ']
  rw [← List.append_assoc, List.reverse_append, List.reverse_append,
    List.reverse_reverse, List.reverse_reverse]
  exact ⟨P.dropWhile Char.isWhitespace, (Q.reverse.dropWhile Char.isWhitespace).reverse,
    by simp [List.append_assoc]⟩

/-! ## Helper lemmas: terminal events in the adapter's streams -/

theorem terminalCount_append (a b : List WireEvent) :
    terminalCount (a ++ b) = terminalCount a + terminalCount b := by
  simp [terminalCount, List.filter_append]

theorem terminalCount_cons (e : WireEvent) (l : List WireEvent) :
    terminalCount (e :: l) = (if isTerminal e = true then 1 else 0) + terminalCount l := by
  unfold terminalCount
  rw [List.filter_cons]
  split
  · simp [Nat.add_comm]
  · simp

theorem terminalCount_map_zero {α : Type} (f : α → WireEvent)
    (h : ∀ x, isTerminal (f x) = false) (l : List α) :
    terminalCount (l.map f) = 0 := by
  induction l with
  | nil => rfl
  | cons a l ih =>
    rw [List.map_cons, terminalCount_cons, h a, ih]
    simp

theorem terminalCount_textDeltas (size : Nat) (id content : Str) :
    terminalCount (textDeltas size id content) = 0 :=
  terminalCount_map_zero (fun c => WireEvent.textDelta id c) (fun _ => rfl) _

theorem terminalCount_textEvents (size : Nat) (id content : Str) :
    terminalCount (textEvents size id content) = 0 := by
  unfold textEvents
  split
  · rw [terminalCount_append, terminalCount_append, terminalCount_textDeltas]
    rfl
  · rfl

theorem terminalCount_reasoningEvents (cfg : AdapterCfg) (rid : Str)
    (reasoning : Option Str) : terminalCount (reasoningEvents cfg rid reasoning) = 0 := by
  cases reasoning with
  | none => rfl
  | some r =>
    simp only [reasoningEvents]
    split
    · rw [terminalCount_append, terminalCount_append,
        terminalCount_map_zero (fun c => WireEvent.reasoningDelta rid c) (fun _ => rfl)]
      rfl
    · rfl

theorem terminalCount_filterMap_zero {α : Type} (f : α → Option WireEvent)
    (h : ∀ x e, f x = some e → isTerminal e = false) (l : List α) :
    terminalCount (l.filterMap f) = 0 := by
  induction l with
  | nil => rfl
  | cons a l ih =>
    rcases hfa : f a with _ | e
    · simp only [List.filterMap_cons, hfa, ih]
    · simp only [List.filterMap_cons, hfa]
      rw [terminalCount_cons, h a e hfa, ih]
      simp

theorem terminalCount_toolCallEvents (tcs : List ToolCall) :
    terminalCount (toolCallEvents tcs) = 0 := by
  refine terminalCount_filterMap_zero _ ?_ _
  intro tc e he
  split at he
  · cases he; rfl
  · cases he

theorem terminalCount_fileEvents (files : List FileRef) :
    terminalCount (fileEvents files) = 0 :=
  terminalCount_map_zero (fun (f : FileRef) => WireEvent.file f.url f.mediaType)
    (fun _ => rfl) _

theorem terminalCount_sourceEvents (sources : List SourceRef) :
    terminalCount (sourceEvents sources) = 0 := by
  refine terminalCount_map_zero _ ?_ _
  intro s
  cases s <;> rfl

theorem terminalCount_handleNodeUpdate (cfg : AdapterCfg) (mid iid rid : Str)
    (s : Snapshot) (h : s.isInterrupt = false) :
    terminalCount (handleNodeUpdate cfg mid iid rid s) = 0 := by
  cases s with
  | interrupt v => simp [Snapshot.isInterrupt] at h
  | noMessages => rfl
  | messages last =>
    cases last with
    | human => rfl
    | ai content tcs r fs ss =>
      simp only [handleNodeUpdate, terminalCount_append,
        terminalCount_reasoningEvents, terminalCount_toolCallEvents,
        terminalCount_fileEvents, terminalCount_sourceEvents,
        terminalCount_textEvents]
      rfl
    | tool tid content fs ss =>
      cases tid with
      | none =>
        simp only [handleNodeUpdate, terminalCount_append,
          terminalCount_fileEvents, terminalCount_sourceEvents,
          terminalCount_textEvents]
        rfl
      | some t =>
        simp only [handleNodeUpdate]
        split
        · rfl
        · simp only [terminalCount_append, terminalCount_fileEvents,
            terminalCount_sourceEvents, terminalCount_textEvents]
          rfl

theorem terminalCount_flatMap_zero (cfg : AdapterCfg) (mid iid rid : Str)
    (snaps : List Snapshot) (h : ∀ s ∈ snaps, s.isInterrupt = false) :
    terminalCount (snaps.flatMap (handleNodeUpdate cfg mid iid rid)) = 0 := by
  induction snaps with
  | nil => rfl
  | cons s snaps ih =>
    rw [List.flatMap_cons, terminalCount_append,
      terminalCount_handleNodeUpdate cfg mid iid rid s (h s (List.mem_cons_self s snaps)),
      ih (fun t ht => h t (List.mem_cons_of_mem s ht))]

/-! ## Helper lemmas: the retrieval loop -/

/-- Triangular numbers, used to count the structured blocks produced by
the nested loop in `retrieval_node`. -/
def tri : Nat → Nat
  | 0 => 0
  | n + 1 => tri n + n + 1

theorem two_mul_tri (n : Nat) : 2 * tri n = n * (n + 1) := by
  induction n with
  | zero => rfl
  | succ n ih =>
    calc 2 * tri (n + 1) = 2 * tri n + 2 * n + 2 := by rw [tri]; ring
    _ = n * (n + 1) + 2 * n + 2 := by rw [ih]
    _ = (n + 1) * (n + 1 + 1) := by ring

theorem tri_eq (n : Nat) : tri n = n * (n + 1) / 2 := by
  have h := two_mul_tri n
  generalize n * (n + 1) = K at h ⊢
  omega

theorem retrievalLoop_spec (agent : Str → ToolMsg) :
    ∀ (qs : List Str) (n : Nat) (acc : RetrievalAcc),
    (retrievalLoop agent n qs acc).callLog = acc.callLog ++ qs ∧
    (retrievalLoop agent n qs acc).toolMessages.length
      = acc.toolMessages.length + qs.length ∧
    (retrievalLoop agent n qs acc).blocks.length
      = acc.blocks.length + qs.length * acc.toolMessages.length + tri qs.length := by
  intro qs
  induction qs with
  | nil => intro n acc; simp [retrievalLoop, tri]
  | cons q rest ih =>
    intro n acc
    rw [retrievalLoop]
    obtain ⟨h1, h2, h3⟩ := ih (n + 1)
      { callLog := acc.callLog ++ [q]
        toolMessages := acc.toolMessages ++ [agent q]
        blocks := acc.blocks ++ (acc.toolMessages ++ [agent q]).map
          (fun tm => buildStructuredContext n q tm.content)
        citations := (acc.toolMessages ++ [agent q]).foldl
          (fun c tm => dictUpdate c tm.citations) acc.citations }
    dsimp only at h1 h2 h3
    refine ⟨?_, ?_, ?_⟩
    · rw [h1]; simp
    · rw [h2]; simp only [List.length_append, List.length_cons,
        List.length_nil, List.length_cons]; omega
    · rw [h3]
      simp only [List.length_append, List.length_map, List.length_nil,
        List.length_cons, tri]
      have e1 : rest.length * (acc.toolMessages.length + (0 + 1))
          = rest.length * acc.toolMessages.length + rest.length := by ring
      have e2 : (rest.length + 1) * acc.toolMessages.length
          = rest.length * acc.toolMessages.length + acc.toolMessages.length := by ring
      generalize hP : rest.length * acc.toolMessages.length = P at e1 e2
      rw [e1, e2]
      omega

/-! ## Helper lemmas: the tool-pair extraction loop -/

theorem loopIter_retrievalCount (s : LoopState) :
    (loopIter s).retrievalCount = s.retrievalCount - 1 := rfl

theorem loopIter_messages (s : LoopState) :
    (loopIter s).messages.length = s.messages.length + 2 := by
  simp [loopIter, extract_tool_outputs_node, extract_tool_inputs_node]

theorem graphLoop_spec : ∀ (k : Nat) (s : LoopState), 0 < k → s.retrievalCount = k →
    ∃ s', graphLoop k s = some (s', k) ∧ s'.retrievalCount = 0 ∧
      s'.messages.length = s.messages.length + 2 * k ∧
      s'.toolInputs = s.toolInputs ∧ s'.toolOutputs = s.toolOutputs := by
  intro k
  induction k with
  | zero => intro s h; omega
  | succ k ih =>
    intro s _ hcount
    have hiter : (loopIter s).retrievalCount = k := by
      rw [loopIter_retrievalCount, hcount]
      omega
    by_cases hk : k = 0
    · subst hk
      refine ⟨loopIter s, ?_, hiter, ?_, rfl, rfl⟩
      · simp [graphLoop, should_stop_retrieval, hiter]
      · rw [loopIter_messages]
    · have hstop : should_stop_retrieval (loopIter s) = false := by
        simp [should_stop_retrieval, hiter, hk]
      obtain ⟨s', hrun, hc0, hm, hin, hout⟩ :=
        ih (loopIter s) (Nat.pos_of_ne_zero hk) hiter
      refine ⟨s', ?_, hc0, ?_, ?_, ?_⟩
      · simp [graphLoop, hstop, hrun]
      · rw [hm, loopIter_messages]; omega
      · rw [hin]; rfl
      · rw [hout]; rfl

/-! ## Claim C5 — the Citation Indexer -/

/-- C5: for every list of n evidence chunks, `serialize_chunks_with_ids`
assigns ids `C1..Cn` in input order, returns a citation map with exactly n
entries (keys pairwise distinct, the i-th entry built from the i-th
chunk), yields an empty context string and an empty map for empty input,
and — being a plain function of its input — returns identical output when
re-run on the same list. -/
theorem citation_indexer_C5 (docs : List Document) :
    ((serialize_chunks_with_ids docs).2).map Prod.fst
        = (List.range docs.length).map (fun i => chunkId (i + 1)) ∧
    ((serialize_chunks_with_ids docs).2).length = docs.length ∧
    (((serialize_chunks_with_ids docs).2).map Prod.fst).Nodup ∧
    (∀ i, i < docs.length →
      ((serialize_chunks_with_ids docs).2).getD i default
        = (chunkId (i + 1), citationFor (docs.getD i default))) ∧
    serialize_chunks_with_ids [] = ([], []) ∧
    serialize_chunks_with_ids docs = serialize_chunks_with_ids docs := by
  refine ⟨?_, citationEntries_length docs 1, citationEntries_keys_nodup docs 1,
    ?_, rfl, rfl⟩
  · show (citationEntries 1 docs).map Prod.fst = _
    rw [citationEntries_keys]
    apply List.map_congr_left
    intro i _
    exact congrArg chunkId (by omega)
  · intro i hi
    show (citationEntries 1 docs).getD i default = _
    rw [citationEntries_getD docs 1 i hi]
    exact congrArg₂ _ (congrArg chunkId (by omega)) rfl

/-- Witness for `citation_indexer_C5` at a concrete two-chunk list. -/
theorem citation_indexer_C5_witness :
    ((serialize_chunks_with_ids [docA, docB]).2).map Prod.fst
        = (List.range 2).map (fun i => chunkId (i + 1)) ∧
    ((serialize_chunks_with_ids [docA, docB]).2).getD 1 default
        = (chunkId 2, citationFor docB) := by
  obtain ⟨h1, _, _, h4, _, _⟩ := citation_indexer_C5 [docA, docB]
  exact ⟨h1, h4 1 (by decide)⟩

/-! ## Claim C10 — snippet truncation -/

/-- C10 counterexample: for a trimmed chunk content of 151 characters the
snippet is 153 characters long — `content[:150] + "..."` — so the claimed
"at most 150 characters" bound is false. -/
theorem snippet_C10_counterexample :
    (citationFor longDoc).fullContent.length = 151 ∧
    (citationFor longDoc).snippet.length = 153 ∧
    ¬ (citationFor longDoc).snippet.length ≤ 150 := by
  refine ⟨?_, ?_, ?_⟩ <;> decide

/-- C10 (amended): the snippet is at most 153 characters — the first 150
characters of the trimmed content plus a three-character ellipsis when the
content exceeds 150 characters, the content itself otherwise — while
`fullContent` always keeps the complete untruncated (trimmed) chunk text. -/
theorem snippet_C10 (doc : Document) :
    (citationFor doc).fullContent = pyStrip doc.pageContent ∧
    (citationFor doc).snippet.length ≤ 153 ∧
    ((pyStrip doc.pageContent).length ≤ 150 →
      (citationFor doc).snippet = pyStrip doc.pageContent) ∧
    (150 < (pyStrip doc.pageContent).length →
      (citationFor doc).snippet = (pyStrip doc.pageContent).take 150 ++ str "...") := by
  by_cases h : 150 < (pyStrip doc.pageContent).length
  · refine ⟨rfl, ?_, fun hle => absurd h (by omega), fun _ => ?_⟩
    · show (if 150 < (pyStrip doc.pageContent).length
          then (pyStrip doc.pageContent).take 150 ++ str "..."
          else pyStrip doc.pageContent).length ≤ 153
      rw [if_pos h, List.length_append, List.length_take]
      have : (str "...").length = 3 := rfl
      omega
    · show (if 150 < (pyStrip doc.pageContent).length
          then (pyStrip doc.pageContent).take 150 ++ str "..."
          else pyStrip doc.pageContent) = _
      rw [if_pos h]
  · refine ⟨rfl, ?_, fun _ => ?_, fun hgt => absurd hgt h⟩
    · show (if 150 < (pyStrip doc.pageContent).length
          then (pyStrip doc.pageContent).take 150 ++ str "..."
          else pyStrip doc.pageContent).length ≤ 153
      rw [if_neg h]
      omega
    · show (if 150 < (pyStrip doc.pageContent).length
          then (pyStrip doc.pageContent).take 150 ++ str "..."
          else pyStrip doc.pageContent) = _
      rw [if_neg h]

/-- Witness for `snippet_C10`: both branches at concrete documents. -/
theorem snippet_C10_witness :
    (citationFor shortDoc).snippet = pyStrip shortDoc.pageContent ∧
    (citationFor longDoc).snippet
      = (pyStrip longDoc.pageContent).take 150 ++ str "..." :=
  ⟨(snippet_C10 shortDoc).2.2.1 (by decide),
   (snippet_C10 longDoc).2.2.2 (by decide)⟩

/-! ## Claim C1 — the multi-call retrieval stage -/

/-- C1 counterexample: with a two-sub-query plan (k = 2) the stage does
make exactly 2 retrieval-agent calls, but the merged context contains 3
structured blocks, not 2 (the nested loop re-serializes every accumulated
tool message on each outer iteration), and the two calls' citation ids
both start at `C1` — they are per-call, not global to the run — so the
second call's `C1` entry overwrites the first call's in the merged map. -/
theorem retrieval_C1_counterexample :
    twoCallRun.callLog = [str "q1", str "q2"] ∧
    twoCallRun.blocks.length = 3 ∧
    (retrievalTool twoQueryDocs (str "q1")).citations
      = [(str "C1", citationFor docA)] ∧
    (retrievalTool twoQueryDocs (str "q2")).citations
      = [(str "C1", citationFor docB)] ∧
    twoCallRun.citations = [(str "C1", citationFor docB)] ∧
    citationFor docB ≠ citationFor docA := by
  refine ⟨?_, ?_, ?_, ?_, ?_, ?_⟩ <;> decide

/-- C1 (amended): for a plan with k sub-queries, the retrieval stage
performs exactly k retrieval-agent calls, one per sub-query in order, and
sets the retrieval counter to k; but the merged context contains
k·(k+1)/2 structured blocks (outer iteration i re-emits one block per
tool output accumulated so far, labelled with call i's number and query),
and the merged citation map is a right-biased merge in which a later
call's ids — assigned locally from `C1` within each call — can collide
with and overwrite an earlier call's entries. -/
theorem retrieval_C1 (agent : Str → ToolMsg) (question : Str)
    (queryPlan : Option QueryPlanR) :
    (retrieval_node agent question queryPlan).callLog
        = queriesFor question queryPlan ∧
    (retrieval_node agent question queryPlan).retrievalCount
        = (queriesFor question queryPlan).length ∧
    (retrieval_node agent question queryPlan).toolMessages.length
        = (queriesFor question queryPlan).length ∧
    (retrieval_node agent question queryPlan).blocks.length
        = (queriesFor question queryPlan).length
            * ((queriesFor question queryPlan).length + 1) / 2 := by
  obtain ⟨h1, h2, h3⟩ :=
    retrievalLoop_spec agent (queriesFor question queryPlan) 1 ⟨[], [], [], []⟩
  refine ⟨?_, rfl, ?_, ?_⟩
  · show (retrievalLoop agent 1 (queriesFor question queryPlan) ⟨[], [], [], []⟩).callLog = _
    rw [h1]; rfl
  · show (retrievalLoop agent 1 (queriesFor question queryPlan) ⟨[], [], [], []⟩).toolMessages.length = _
    rw [h2]; simp
  · show (retrievalLoop agent 1 (queriesFor question queryPlan) ⟨[], [], [], []⟩).blocks.length = _
    rw [h3, ← tri_eq]
    simp

/-! ## Claim C9 — planner fallback -/

/-- C9: if the planner produces no structured query plan — or a plan whose
sub-question list is missing or empty — the run proceeds and the retrieval
stage performs exactly one retrieval-agent call whose query is the
original question. -/
theorem planner_fallback_C9 (planner : Str → Option QueryPlanR)
    (agent : Str → ToolMsg) (question : Str)
    (h : query_plan_node planner question = none
        ∨ ∃ p, query_plan_node planner question = some p
            ∧ (p.subQuestions = none ∨ p.subQuestions = some [])) :
    (retrieval_node agent question (query_plan_node planner question)).callLog
        = [question] ∧
    (retrieval_node agent question (query_plan_node planner question)).retrievalCount
        = 1 := by
  have hq : queriesFor question (query_plan_node planner question) = [question] := by
    rcases h with h | ⟨p, hp, hsub⟩
    · rw [h]; rfl
    · rw [hp]; rcases hsub with h2 | h2 <;> simp [queriesFor, h2]
  obtain ⟨h1, _, _⟩ := retrieval_C1 agent question (query_plan_node planner question)
  constructor
  · rw [h1, hq]
  · show (queriesFor question (query_plan_node planner question)).length = 1
    rw [hq]
    rfl

/-- Witness for `planner_fallback_C9`: a planner returning no structured
output. -/
theorem planner_fallback_C9_witness :
    (retrieval_node (retrievalTool twoQueryDocs) (str "what is RAG?")
        (query_plan_node (fun _ => none) (str "what is RAG?"))).callLog
      = [str "what is RAG?"] ∧
    (retrieval_node (retrievalTool twoQueryDocs) (str "what is RAG?")
        (query_plan_node (fun _ => none) (str "what is RAG?"))).retrievalCount = 1 :=
  planner_fallback_C9 (fun _ => none) (retrievalTool twoQueryDocs)
    (str "what is RAG?") (Or.inl rfl)

/-! ## Claim C8 — context critic fallbacks -/

/-- C8: if the merged context entering the critic stage is empty or
whitespace-only, the critic agent is not invoked and the state receives
empty context with the single rationale entry
"No context available for analysis"; if the critic is invoked but returns
no structured response, the state keeps the original merged context
unchanged with the single rationale entry
"Context critic analysis unavailable - using original context".  In both
cases `context_critic_node` returns an ordinary state update (it is a
total function): the run does not fail. -/
theorem context_critic_C8 (critic : Str → Option ContextCritic)
    (question ctx : Str) :
    ((ctx = [] ∨ pyStrip ctx = []) →
      context_critic_node critic question ctx
        = { context := []
            contextRationale := [str "No context available for analysis"]
            invoked := false }) ∧
    (¬ (ctx = [] ∨ pyStrip ctx = []) →
      critic (criticUserContent question ctx) = none →
      context_critic_node critic question ctx
        = { context := ctx
            contextRationale :=
              [str "Context critic analysis unavailable - using original context"]
            invoked := true }) := by
  constructor
  · intro h
    simp only [context_critic_node, if_pos h]
  · intro h hnone
    simp only [context_critic_node, if_neg h, hnone]

/-- Witness for `context_critic_C8`: the empty-context skip and the
missing-structured-response fallback, both at concrete inputs. -/
theorem context_critic_C8_witness :
    context_critic_node (fun _ => none) (str "q") []
      = { context := []
          contextRationale := [str "No context available for analysis"]
          invoked := false } ∧
    context_critic_node (fun _ => none) (str "q") (str "evidence")
      = { context := str "evidence"
          contextRationale :=
            [str "Context critic analysis unavailable - using original context"]
          invoked := true } :=
  ⟨(context_critic_C8 (fun _ => none) (str "q") []).1 (Or.inl rfl),
   (context_critic_C8 (fun _ => none) (str "q") (str "evidence")).2
     (by decide) rfl⟩

/-! ## Claim C6 — the extraction loop terminates after exactly k passes -/

/-- C6: starting from a retrieval stage that set the counter to k ≥ 1 and
recorded k tool-input and k tool-output messages, the
`extract_tool_inputs → extract_tool_outputs` loop runs exactly k
iterations when given fuel k (so it terminates for every k, regardless of
what the agents put in the messages), each iteration appends exactly one
tool-input and one tool-output message, `extract_tool_inputs_node` leaves
the counter unchanged, `extract_tool_outputs_node` decrements it by
exactly one, and the final state satisfies the stop condition that routes
control to the context critic. -/
theorem extraction_loop_C6 (k : Nat) (s : LoopState)
    (hk : 0 < k) (hc : s.retrievalCount = k)
    (_hin : s.toolInputs.length = k) (_hout : s.toolOutputs.length = k) :
    (∃ s', graphLoop k s = some (s', k) ∧ s'.retrievalCount = 0 ∧
      should_stop_retrieval s' = true ∧
      s'.messages.length = s.messages.length + 2 * k) ∧
    (∀ t : LoopState,
      (extract_tool_inputs_node t).retrievalCount = t.retrievalCount ∧
      (extract_tool_inputs_node t).messages.length = t.messages.length + 1) ∧
    (∀ t : LoopState,
      (extract_tool_outputs_node t).retrievalCount = t.retrievalCount - 1 ∧
      (extract_tool_outputs_node t).messages.length = t.messages.length + 1) := by
  refine ⟨?_, fun t => ⟨rfl, by simp [extract_tool_inputs_node]⟩,
    fun t => ⟨rfl, by simp [extract_tool_outputs_node]⟩⟩
  obtain ⟨s', h1, h2, h3, _, _⟩ := graphLoop_spec k s hk hc
  exact ⟨s', h1, h2, by simp [should_stop_retrieval, h2], h3⟩

/-- Witness for `extraction_loop_C6` at k = 2. -/
theorem extraction_loop_C6_witness :
    ∃ s', graphLoop 2
        { toolInputs := [str "i1", str "i2"]
          toolOutputs := [str "o1", str "o2"]
          retrievalCount := 2
          messages := [] } = some (s', 2) ∧
      s'.retrievalCount = 0 ∧ should_stop_retrieval s' = true ∧
      s'.messages.length = ([] : List Str).length + 2 * 2 :=
  (extraction_loop_C6 2
    { toolInputs := [str "i1", str "i2"]
      toolOutputs := [str "o1", str "o2"]
      retrievalCount := 2
      messages := [] } (by decide) rfl (by decide) (by decide)).1

/-! ## Claim C4 — citation integrity at verification time -/

/-- C4 counterexample: the verification stage performs no citation
validation.  With a verifier whose answer cites `[C99]` while the
citation map only has key `C1`, the stored final answer and the formatted
message both retain the dangling `[C99]` marker. -/
theorem verification_C4_counterexample :
    str "[C99]" <:+: advVerification.answer ∧
    str "C99" ∉ advCitations.map Prod.fst ∧
    str "[C99]" <:+: advVerification.message := by
  refine ⟨?_, ?_, ?_⟩ <;> decide

/-- C4 (amended): `verification_node` stores the verifier agent's answer
verbatim and embeds it verbatim (up to the surrounding strip, which cannot
touch it) in the formatted markdown message; consequently every citation
marker the agent's answer contains — dangling or not — survives into the
produced answer, and no mechanical pass restricts markers to the citation
map's keys. -/
theorem verification_C4 (verifier : Str → Str → Str → Str)
    (question context draft : Str) (citations : List (Str × Citation)) :
    (verification_node verifier question context draft citations).answer
        = verifier question context draft ∧
    (∀ marker : Str,
      marker <:+: verifier question context draft →
      marker <:+:
        (verification_node verifier question context draft citations).message) := by
  refine ⟨rfl, ?_⟩
  intro marker hm
  show marker <:+: format_final_answer_with_citations
    (verifier question context draft) citations
  set ans := verifier question context draft with hans
  unfold format_final_answer_with_citations
  have hshape : joinSep (str "\n") (finalSections ans citations)
      = (str "## 💡 Answer" ++ str "\n" ++ str "\n")
        ++ ans
        ++ (str "\n" ++ joinSep (str "\n")
              ([] :: str "\n---"
                :: (if citations ≠ [] then
                      [str "\n## 📚 References", []]
                        ++ (sortCitations citations).flatMap citationLines
                    else []))) := by
    simp [finalSections, joinSep, List.append_assoc]
  rw [hshape]
  refine (hm.trans (infix_pyStrip _ _ _ ?_ ?_))
  · exact ⟨'#', by simp [str], by decide⟩
  · refine ⟨'-', ?_, by decide⟩
    refine List.mem_append_right _ ?_
    have h1 : joinSep (str "\n")
        ([] :: str "\n---" :: (if citations ≠ [] then
            [str "\n## 📚 References", []]
              ++ (sortCitations citations).flatMap citationLines
          else []))
        = [] ++ str "\n" ++ joinSep (str "\n")
            (str "\n---" :: (if citations ≠ [] then
                [str "\n## 📚 References", []]
                  ++ (sortCitations citations).flatMap citationLines
              else [])) := rfl
    rw [h1]
    refine List.mem_append_right _ ?_
    exact mem_joinSep_head _ _ _ '-' (by decide)

/-- Witness for `verification_C4` at a concrete marker and run. -/
theorem verification_C4_witness :
    (verification_node (fun _ _ _ => str "fact [C1].") (str "q") (str "c")
        (str "d") advCitations).answer = str "fact [C1]." ∧
    str "[C1]" <:+:
      (verification_node (fun _ _ _ => str "fact [C1].") (str "q") (str "c")
        (str "d") advCitations).message :=
  ⟨(verification_C4 (fun _ _ _ => str "fact [C1].") (str "q") (str "c")
      (str "d") advCitations).1,
   (verification_C4 (fun _ _ _ => str "fact [C1].") (str "q") (str "c")
      (str "d") advCitations).2 (str "[C1]") (by decide)⟩

/-! ## Claim C2 — exactly one terminal event -/

theorem terminal_not_mem (evs : List WireEvent) (h : terminalCount evs = 0)
    (e : WireEvent) (he : isTerminal e = true) : e ∉ evs := by
  intro hmem
  have h1 : e ∈ evs.filter isTerminal := List.mem_filter.mpr ⟨hmem, he⟩
  have h2 := List.length_pos.mpr (List.ne_nil_of_mem h1)
  unfold terminalCount at h
  omega

/-- C2 counterexample: a run whose snapshot stream contains an interrupt
marker produces *two* `finish` events — the interrupt handler's
`finish(interrupt)` and the plain `finish` that `stream` always appends
after the snapshot loop — so "exactly one terminal event per run" fails
on interrupted runs. -/
theorem stream_terminal_C2_counterexample :
    terminalCount (stream {} (str "m") (str "i") (str "r")
        [Snapshot.interrupt [str "pause"]] none) = 2 ∧
    (stream {} (str "m") (str "i") (str "r")
        [Snapshot.interrupt [str "pause"]] none).filter isTerminal
      = [WireEvent.finish (some (str "interrupt")), WireEvent.finish none] := by
  refine ⟨?_, ?_⟩ <;> decide

/-- C2 (amended): for every run whose snapshots contain no interrupt
marker, the emitted stream contains exactly one terminal event — one
plain `finish` on normal completion (followed only by the `[DONE]`
sentinel), or one `error` carrying the error text on a run-level failure,
in which case the stream stops at the `error` event and no `finish` event
occurs anywhere in it.  (Interrupted runs instead get the interrupt
handler's `finish(interrupt)` *and* the closing plain `finish`, per the
counterexample.) -/
theorem stream_terminal_C2 (cfg : AdapterCfg) (mid iid rid : Str)
    (snaps : List Snapshot) (err : Option Str)
    (h : ∀ s ∈ snaps, s.isInterrupt = false) :
    terminalCount (stream cfg mid iid rid snaps err) = 1 ∧
    (err = none →
      stream cfg mid iid rid snaps err
        = snaps.flatMap (handleNodeUpdate cfg mid iid rid)
            ++ [WireEvent.finish none, WireEvent.done]) ∧
    (∀ e, err = some e →
      stream cfg mid iid rid snaps err
        = snaps.flatMap (handleNodeUpdate cfg mid iid rid)
            ++ [WireEvent.error e] ∧
      (∀ fr : Option Str,
        WireEvent.finish fr ∉ stream cfg mid iid rid snaps err)) := by
  have h0 := terminalCount_flatMap_zero cfg mid iid rid snaps h
  refine ⟨?_, fun he => by subst he; rfl, ?_⟩
  · cases err with
    | none =>
      show terminalCount (_ ++ [WireEvent.finish none, WireEvent.done]) = 1
      rw [terminalCount_append, h0]
      rfl
    | some e =>
      show terminalCount (_ ++ [WireEvent.error e]) = 1
      rw [terminalCount_append, h0]
      rfl
  · intro e he
    subst he
    refine ⟨rfl, ?_⟩
    intro fr hmem
    rcases List.mem_append.mp hmem with hmem | hmem
    · exact terminal_not_mem _ h0 (WireEvent.finish fr) rfl hmem
    · simp at hmem

/-- Witness for `stream_terminal_C2`: one normal run and one failing run
over a concrete non-interrupt snapshot. -/
theorem stream_terminal_C2_witness :
    terminalCount (stream {} (str "m") (str "i") (str "r")
        [Snapshot.messages (LastMsg.ai (str "hello") [] none [] [])] none) = 1 ∧
    terminalCount (stream {} (str "m") (str "i") (str "r")
        [Snapshot.messages (LastMsg.ai (str "hello") [] none [] [])]
        (some (str "boom"))) = 1 :=
  ⟨(stream_terminal_C2 {} (str "m") (str "i") (str "r")
      [Snapshot.messages (LastMsg.ai (str "hello") [] none [] [])] none
      (by intro t ht; simp at ht; subst ht; rfl)).1,
   (stream_terminal_C2 {} (str "m") (str "i") (str "r")
      [Snapshot.messages (LastMsg.ai (str "hello") [] none [] [])]
      (some (str "boom"))
      (by intro t ht; simp at ht; subst ht; rfl)).1⟩

/-! ## Claim C3 — interruption handling -/

/-- C3 counterexample: for a run whose (only) snapshot signals
interruption with message "hi", the wire stream is the chunked interrupt
text followed by `finish(interrupt)`, then a further plain `finish` event
before the `[DONE]` sentinel — so "no further wire events between that
finish event and `[DONE]`" is false. -/
theorem interrupt_C3_counterexample :
    stream {} (str "m") (str "i") (str "r")
        [Snapshot.interrupt [str "hi"]] none
      = [WireEvent.start (str "i"), WireEvent.textStart (str "i"),
         WireEvent.textDelta (str "i") (str "hi"), WireEvent.textEnd (str "i"),
         WireEvent.finish (some (str "interrupt")),
         WireEvent.finish none, WireEvent.done] := by
  decide

/-- C3 (amended): if a state snapshot signals interruption, the adapter
emits the interrupt message as chunked text (start, text-start,
width-bounded text-delta events whose concatenation is the message,
text-end) followed by one `finish` with reason `interrupt` and stops
processing that snapshot; but the run's stream then closes as usual, so
exactly one further plain `finish` event (no other event) stands between
the `finish(interrupt)` and the `[DONE]` sentinel when the interrupt
snapshot is the last one. -/
theorem interrupt_C3 (cfg : AdapterCfg) (mid iid rid : Str)
    (pre : List Snapshot) (values : List Str)
    (hs : 0 < cfg.chunkSize) (hm : values.headD [] ≠ []) :
    ∃ ds : List Str,
      stream cfg mid iid rid (pre ++ [Snapshot.interrupt values]) none
        = pre.flatMap (handleNodeUpdate cfg mid iid rid)
          ++ ([WireEvent.start iid, WireEvent.textStart iid]
              ++ ds.map (fun d => WireEvent.textDelta iid d)
              ++ [WireEvent.textEnd iid,
                  WireEvent.finish (some (str "interrupt")),
                  WireEvent.finish none, WireEvent.done])
      ∧ (∀ d ∈ ds, d.length ≤ cfg.chunkSize)
      ∧ ds.flatten = values.headD [] := by
  cases values with
  | nil => exact absurd rfl hm
  | cons v rest =>
    refine ⟨chunkList cfg.chunkSize v, ?_,
      chunkList_mem_length_le _ _, chunkList_flatten _ hs _⟩
    unfold stream
    rw [List.flatMap_append]
    have hm' : v ≠ [] := hm
    simp [handleNodeUpdate, handleInterrupt, textDeltas, hm', List.append_assoc]

/-- Witness for `interrupt_C3` at a concrete interrupted run. -/
theorem interrupt_C3_witness :
    ∃ ds : List Str,
      stream {} (str "m") (str "i") (str "r")
          ([] ++ [Snapshot.interrupt [str "need input"]]) none
        = ([] : List Snapshot).flatMap (handleNodeUpdate {} (str "m") (str "i") (str "r"))
          ++ ([WireEvent.start (str "i"), WireEvent.textStart (str "i")]
              ++ ds.map (fun d => WireEvent.textDelta (str "i") d)
              ++ [WireEvent.textEnd (str "i"),
                  WireEvent.finish (some (str "interrupt")),
                  WireEvent.finish none, WireEvent.done])
      ∧ (∀ d ∈ ds, d.length ≤ AdapterCfg.chunkSize {})
      ∧ ds.flatten = ([str "need input"] : List Str).headD [] :=
  interrupt_C3 {} (str "m") (str "i") (str "r") [] [str "need input"]
    (by decide) (by decide)

/-! ## Claim C7 — per-entry emission for assistant messages -/

/-- C7: for an assistant-authored snapshot entry (no reasoning trace, no
file/source metadata) the adapter emits `start`; it emits `text-start`, a
sequence of `text-delta` events each at most the configured chunk width
whose concatenation equals the entry's text, and `text-end` exactly when
the content is non-empty after stripping whitespace; for an entry
carrying one (well-formed) tool call and no text it emits `start`,
`tool-input-available` and `finish-step` with no `text-start`/`text-end`;
and in all cases the entry's processing closes with `finish-step`.  (The
adapter also brackets the entry with a leading `start-step`.) -/
theorem node_update_C7 (cfg : AdapterCfg) (mid iid rid : Str)
    (content : Str) (tcs : List ToolCall) (hs : 0 < cfg.chunkSize) :
    (pyStrip content ≠ [] →
      ∃ ds : List Str,
        handleNodeUpdate cfg mid iid rid
            (Snapshot.messages (LastMsg.ai content tcs none [] []))
          = [WireEvent.startStep, WireEvent.start mid] ++ toolCallEvents tcs
              ++ ([WireEvent.textStart mid]
                  ++ ds.map (fun d => WireEvent.textDelta mid d)
                  ++ [WireEvent.textEnd mid])
              ++ [WireEvent.finishStep]
          ∧ (∀ d ∈ ds, d.length ≤ cfg.chunkSize)
          ∧ ds.flatten = content) ∧
    (pyStrip content = [] →
      handleNodeUpdate cfg mid iid rid
          (Snapshot.messages (LastMsg.ai content tcs none [] []))
        = [WireEvent.startStep, WireEvent.start mid] ++ toolCallEvents tcs
            ++ [WireEvent.finishStep]) ∧
    (∀ tid nm : Str, tid ≠ [] → nm ≠ [] → pyStrip content = [] →
      handleNodeUpdate cfg mid iid rid
          (Snapshot.messages (LastMsg.ai content [⟨tid, nm⟩] none [] []))
        = [WireEvent.startStep, WireEvent.start mid,
           WireEvent.toolInputAvailable tid nm, WireEvent.finishStep]) := by
  refine ⟨?_, ?_, ?_⟩
  · intro hne
    refine ⟨chunkList cfg.chunkSize content, ?_,
      chunkList_mem_length_le _ _, chunkList_flatten _ hs _⟩
    simp [handleNodeUpdate, reasoningEvents, fileEvents, sourceEvents,
      textEvents, textDeltas, hne, List.append_assoc]
  · intro hz
    simp [handleNodeUpdate, reasoningEvents, fileEvents, sourceEvents,
      textEvents, hz]
  · intro tid nm htid hnm hz
    simp [handleNodeUpdate, reasoningEvents, fileEvents, sourceEvents,
      textEvents, hz, toolCallEvents, htid, hnm]

/-- Witness for `node_update_C7`: a text-only entry and a tool-call-only
entry, both concrete. -/
theorem node_update_C7_witness :
    (∃ ds : List Str,
      handleNodeUpdate {} (str "m") (str "i") (str "r")
          (Snapshot.messages (LastMsg.ai (str "hello") [] none [] []))
        = [WireEvent.startStep, WireEvent.start (str "m")] ++ toolCallEvents []
            ++ ([WireEvent.textStart (str "m")]
                ++ ds.map (fun d => WireEvent.textDelta (str "m") d)
                ++ [WireEvent.textEnd (str "m")])
            ++ [WireEvent.finishStep]
        ∧ (∀ d ∈ ds, d.length ≤ AdapterCfg.chunkSize {})
        ∧ ds.flatten = str "hello") ∧
    handleNodeUpdate {} (str "m") (str "i") (str "r")
        (Snapshot.messages (LastMsg.ai []
          [{ id := str "call_1", name := str "retrieval_tool" }] none [] []))
      = [WireEvent.startStep, WireEvent.start (str "m"),
         WireEvent.toolInputAvailable (str "call_1") (str "retrieval_tool"),
         WireEvent.finishStep] :=
  ⟨(node_update_C7 {} (str "m") (str "i") (str "r") (str "hello") []
      (by decide)).1 (by decide),
   (node_update_C7 {} (str "m") (str "i") (str "r") [] []
      (by decide)).2.2 (str "call_1") (str "retrieval_tool")
     (by decide) (by decide) (by decide)⟩

end IKMS
